import Mathlib

/-!
Verification of the configuration-submission handler
(`internal/handler/config/create.go`): request validation, processor
dispatch, response serialization and the trace/response event stream.

The Go handler is shallowly embedded: machine state is made explicit, the
observable actions of one request (span attribute/status updates, processor
invocations, response-writer calls) are collected in order into a `List Event`.
Bytes are modelled as `Nat` with explicit `% 256` / bounds where it matters.
-/

namespace Seedling

/-- Models `uuid.UUID` from github.com/google/uuid: a 16-byte array.
Each field is one byte (a `Nat`, well-formed when `< 256`). -/
structure UUID where
  b0 : Nat
  b1 : Nat
  b2 : Nat
  b3 : Nat
  b4 : Nat
  b5 : Nat
  b6 : Nat
  b7 : Nat
  b8 : Nat
  b9 : Nat
  b10 : Nat
  b11 : Nat
  b12 : Nat
  b13 : Nat
  b14 : Nat
  b15 : Nat
deriving DecidableEq

/-- All sixteen bytes of the UUID are in range. -/
def uuidWF (u : UUID) : Prop :=
  u.b0 < 256 ∧ u.b1 < 256 ∧ u.b2 < 256 ∧ u.b3 < 256 ∧
  u.b4 < 256 ∧ u.b5 < 256 ∧ u.b6 < 256 ∧ u.b7 < 256 ∧
  u.b8 < 256 ∧ u.b9 < 256 ∧ u.b10 < 256 ∧ u.b11 < 256 ∧
  u.b12 < 256 ∧ u.b13 < 256 ∧ u.b14 < 256 ∧ u.b15 < 256

instance (u : UUID) : Decidable (uuidWF u) := by
  unfold uuidWF; infer_instance

/-- The zero value `uuid.UUID` in Go (`uuid.Nil`): all bytes zero. -/
def uuidNil : UUID :=
  ⟨0, 0, 0, 0, 0, 0, 0, 0, 0, 0, 0, 0, 0, 0, 0, 0⟩

/-- Models `uuid.New` (= `uuid.Must(uuid.NewRandom())`): sixteen random
bytes with the version nibble of byte 6 forced to 4
(`u[6] = (u[6] & 0x0f) | 0x40`) and the variant bits of byte 8 forced to
RFC 4122 (`u[8] = (u[8] & 0x3f) | 0x80`).  The randomness source is the
oracle `r`, reduced mod 256 as bytes. -/
def uuidNew (r : Fin 16 → Nat) : UUID :=
  ⟨r 0 % 256, r 1 % 256, r 2 % 256, r 3 % 256,
   r 4 % 256, r 5 % 256, (r 6 % 256) &&& 15 ||| 64, r 7 % 256,
   (r 8 % 256) &&& 63 ||| 128, r 9 % 256, r 10 % 256, r 11 % 256,
   r 12 % 256, r 13 % 256, r 14 % 256, r 15 % 256⟩

/-- Models the lowercase hex encoding of one byte used by `UUID.String`
(`hex.Encode`): high nibble first. `Nat.digitChar` maps 0..15 to
`0`..`9`, `a`..`f`. -/
def byteHex (b : Nat) : List Char :=
  [Nat.digitChar (b / 16), Nat.digitChar (b % 16)]

/-- Hex encoding of a run of bytes (one slice argument of `hex.Encode`). -/
def byteHexSeq : List Nat → List Char
  | [] => []
  | b :: bs => byteHex b ++ byteHexSeq bs

/-- Models `UUID.String` from github.com/google/uuid as a character list:
`xxxxxxxx-xxxx-xxxx-xxxx-xxxxxxxxxxxx` (8-4-4-4-12 hex groups, i.e. hex
of bytes 0-3, 4-5, 6-7, 8-9 and 10-15 separated by dashes). -/
def uuidChars (u : UUID) : List Char :=
  byteHexSeq [u.b0, u.b1, u.b2, u.b3] ++ '-' ::
  (byteHexSeq [u.b4, u.b5] ++ '-' ::
  (byteHexSeq [u.b6, u.b7] ++ '-' ::
  (byteHexSeq [u.b8, u.b9] ++ '-' ::
  byteHexSeq [u.b10, u.b11, u.b12, u.b13, u.b14, u.b15])))

/-- `UUID.String` as a Lean `String`. -/
def uuidString (u : UUID) : String :=
  ⟨uuidChars u⟩

/-- Models the `xvalues` hex-digit table of github.com/google/uuid:
value of one hex character, `none` for a non-hex character. -/
def hexVal (c : Char) : Option Nat :=
  if '0' ≤ c ∧ c ≤ '9' then some (c.toNat - '0'.toNat)
  else if 'a' ≤ c ∧ c ≤ 'f' then some (c.toNat - 'a'.toNat + 10)
  else if 'A' ≤ c ∧ c ≤ 'F' then some (c.toNat - 'A'.toNat + 10)
  else none

/-- Models `xtob` from github.com/google/uuid: decode one byte from two
hex characters, consuming them from the input. -/
def readHexByte : List Char → Option (Nat × List Char)
  | c1 :: c2 :: rest =>
    match hexVal c1, hexVal c2 with
    | some h, some l => some (16 * h + l, rest)
    | _, _ => none
  | _ => none

/-- Consume one expected character (the dashes of the canonical form). -/
def expectChar (c : Char) : List Char → Option (List Char)
  | x :: rest => if x = c then some rest else none
  | [] => none

/-- Read a run of `n` hex-encoded bytes. -/
def readHexGroup : Nat → List Char → Option (List Nat × List Char)
  | 0, s => some ([], s)
  | n + 1, s =>
    match readHexByte s with
    | some (b, s1) =>
      match readHexGroup n s1 with
      | some (bs, s2) => some (b :: bs, s2)
      | none => none
    | none => none

/-- Assemble a UUID from exactly 16 decoded bytes. -/
def mkUUID : List Nat → Option UUID
  | [x0, x1, x2, x3, x4, x5, x6, x7, x8, x9, x10, x11, x12, x13, x14, x15] =>
    some ⟨x0, x1, x2, x3, x4, x5, x6, x7, x8, x9, x10, x11, x12, x13, x14, x15⟩
  | _ => none

/-- Models `uuid.Parse` restricted to the canonical 36-character form
`xxxxxxxx-xxxx-xxxx-xxxx-xxxxxxxxxxxx` (the form `UUID.String` emits):
hex groups of 4, 2, 2, 2 and 6 bytes separated by dashes, nothing after. -/
def uuidParseChars (cs : List Char) : Option UUID :=
  (readHexGroup 4 cs).bind fun p1 =>
  (expectChar '-' p1.2).bind fun s1 =>
  (readHexGroup 2 s1).bind fun p2 =>
  (expectChar '-' p2.2).bind fun s2 =>
  (readHexGroup 2 s2).bind fun p3 =>
  (expectChar '-' p3.2).bind fun s3 =>
  (readHexGroup 2 s3).bind fun p4 =>
  (expectChar '-' p4.2).bind fun s4 =>
  (readHexGroup 6 s4).bind fun p5 =>
  if p5.2 = [] then mkUUID (p1.1 ++ p2.1 ++ p3.1 ++ p4.1 ++ p5.1) else none

theorem hexVal_digitChar (n : Nat) (h : n < 16) :
    hexVal (Nat.digitChar n) = some n := by
  interval_cases n <;> decide

theorem readHexByte_byteHex (b : Nat) (rest : List Char) (h : b < 256) :
    readHexByte (byteHex b ++ rest) = some (b, rest) := by
  have h1 : b / 16 < 16 := by omega
  have h2 : b % 16 < 16 := by omega
  simp [byteHex, readHexByte, hexVal_digitChar _ h1, hexVal_digitChar _ h2,
    Nat.div_add_mod]

theorem readHexGroup_byteHexSeq (bs : List Nat) (rest : List Char)
    (h : ∀ b ∈ bs, b < 256) :
    readHexGroup bs.length (byteHexSeq bs ++ rest) = some (bs, rest) := by
  induction bs with
  | nil => simp [byteHexSeq, readHexGroup]
  | cons b tl ih =>
    have hb : b < 256 := h b (by simp)
    have htl : ∀ x ∈ tl, x < 256 := fun x hx => h x (by simp [hx])
    simp only [byteHexSeq, List.append_assoc, List.length_cons]
    rw [readHexGroup, readHexByte_byteHex b _ hb]
    simp [ih htl]

theorem expectChar_cons_self (c : Char) (rest : List Char) :
    expectChar c (c :: rest) = some rest := by
  simp [expectChar]

theorem uuidChars_roundtrip (u : UUID) (h : uuidWF u) :
    uuidParseChars (uuidChars u) = some u := by
  obtain ⟨h0, h1, h2, h3, h4, h5, h6, h7, h8, h9, h10, h11, h12, h13, h14, h15⟩ := h
  have g1 : ∀ rest, readHexGroup 4 (byteHexSeq [u.b0, u.b1, u.b2, u.b3] ++ rest) =
      some ([u.b0, u.b1, u.b2, u.b3], rest) := fun rest =>
    readHexGroup_byteHexSeq [u.b0, u.b1, u.b2, u.b3] rest (by simp_all)
  have g2 : ∀ rest, readHexGroup 2 (byteHexSeq [u.b4, u.b5] ++ rest) =
      some ([u.b4, u.b5], rest) := fun rest =>
    readHexGroup_byteHexSeq [u.b4, u.b5] rest (by simp_all)
  have g3 : ∀ rest, readHexGroup 2 (byteHexSeq [u.b6, u.b7] ++ rest) =
      some ([u.b6, u.b7], rest) := fun rest =>
    readHexGroup_byteHexSeq [u.b6, u.b7] rest (by simp_all)
  have g4 : ∀ rest, readHexGroup 2 (byteHexSeq [u.b8, u.b9] ++ rest) =
      some ([u.b8, u.b9], rest) := fun rest =>
    readHexGroup_byteHexSeq [u.b8, u.b9] rest (by simp_all)
  have g5 : readHexGroup 6 (byteHexSeq [u.b10, u.b11, u.b12, u.b13, u.b14, u.b15]) =
      some ([u.b10, u.b11, u.b12, u.b13, u.b14, u.b15], []) := by
    have h := readHexGroup_byteHexSeq [u.b10, u.b11, u.b12, u.b13, u.b14, u.b15] []
      (by simp_all)
    simpa using h
  simp only [uuidParseChars, uuidChars, g1, g2, g3, g4, g5, Option.some_bind,
    expectChar_cons_self]
  rfl

set_option maxRecDepth 4000 in
theorem uuidNew_wf (r : Fin 16 → Nat) : uuidWF (uuidNew r) := by
  have hb : ∀ x : Nat, x < 256 → x &&& 15 ||| 64 < 256 ∧ x &&& 63 ||| 128 < 256 := by
    decide
  refine ⟨?_, ?_, ?_, ?_, ?_, ?_, ?_, ?_, ?_, ?_, ?_, ?_, ?_, ?_, ?_, ?_⟩ <;>
    first
      | exact Nat.mod_lt _ (by omega)
      | exact (hb _ (Nat.mod_lt _ (by omega))).1
      | exact (hb _ (Nat.mod_lt _ (by omega))).2

set_option maxRecDepth 4000 in
theorem uuidNew_ne_nil (r : Fin 16 → Nat) : uuidNew r ≠ uuidNil := by
  intro heq
  have h6 : (r 6 % 256) &&& 15 ||| 64 = 0 := congrArg UUID.b6 heq
  have hnz : ∀ x : Nat, x < 256 → (x &&& 15 ||| 64) ≠ 0 := by decide
  exact hnz _ (Nat.mod_lt _ (by omega)) h6

/-- Models the `Response` struct of create.go: `Success bool`,
`Message string`, `ID uuid.UUID`, with json tags `success`, `message`,
`id` (no omitempty on any field). -/
structure Response where
  Success : Bool
  Message : String
  ID : UUID
deriving DecidableEq

/-- Models `encoding/json` escaping of one string character
(`encodeState.string`, HTML escaping on as `json.Marshal` uses): quote,
backslash, newline, carriage return and tab get short escapes; `<`, `>`,
`&` and the remaining control characters become `\u00XX`. Characters
above the ASCII controls pass through. -/
def escapeChar (c : Char) : List Char :=
  if c = '"' then ['\\', '"']
  else if c = '\\' then ['\\', '\\']
  else if c = '\n' then ['\\', 'n']
  else if c = '\r' then ['\\', 'r']
  else if c = '\t' then ['\\', 't']
  else if c = '<' ∨ c = '>' ∨ c = '&' ∨ c.toNat < 32 then
    '\\' :: 'u' :: '0' :: '0' :: byteHex (c.toNat % 256)
  else [c]

/-- JSON escaping of a whole string body. -/
def jsonEscape : List Char → List Char
  | [] => []
  | c :: cs => escapeChar c ++ jsonEscape cs

/-- Models `json.Marshal` applied to a `Response` value: an object with
the three fields in struct order under their json tags; the `uuid.UUID`
field marshals through `MarshalText` as its canonical string.
`json.Marshal` cannot fail on this struct (bool, string and uuid.UUID
all marshal without error), so the encoding is total. -/
def marshalChars (r : Response) : List Char :=
  "\x7b\"success\":".data ++
  ((if r.Success then "true".data else "false".data) ++
  (",\"message\":\"".data ++
  (jsonEscape r.Message.data ++
  ("\",\"id\":\"".data ++
  (uuidChars r.ID ++
  "\"\x7d".data)))))

/-- `json.Marshal` of a `Response` as a Lean string. -/
def marshalResponse (r : Response) : String :=
  ⟨marshalChars r⟩

/-- Inverse of the short escape forms accepted inside a JSON string. -/
def unescapeChar (c : Char) : Option Char :=
  if c = '"' then some '"'
  else if c = '\\' then some '\\'
  else if c = '/' then some '/'
  else if c = 'n' then some '\n'
  else if c = 'r' then some '\r'
  else if c = 't' then some '\t'
  else if c = 'b' then some (Char.ofNat 8)
  else if c = 'f' then some (Char.ofNat 12)
  else none

/-- Read a JSON string body up to and including the closing quote,
resolving short escapes (the `\uXXXX` form is not modelled; the
handler's output never contains it).  Returns the decoded content and
the remaining input. -/
def readJsonString : List Char → Option (List Char × List Char)
  | [] => none
  | '\\' :: e :: rest2 =>
    match unescapeChar e with
    | some d => (readJsonString rest2).map fun p => (d :: p.1, p.2)
    | none => none
  | c :: rest =>
    if c = '"' then some ([], rest)
    else (readJsonString rest).map fun p => (c :: p.1, p.2)

/-- Consume an expected literal character sequence. -/
def consumeLit : List Char → List Char → Option (List Char)
  | [], s => some s
  | p :: ps, c :: cs => if c = p then consumeLit ps cs else none
  | _ :: _, [] => none

/-- Parse a JSON boolean literal. -/
def parseBool (s : List Char) : Option (Bool × List Char) :=
  match consumeLit "true".data s with
  | some r => some (true, r)
  | none =>
    match consumeLit "false".data s with
    | some r => some (false, r)
    | none => none

/-- Models `json.Unmarshal` into a `Response`, restricted to the
canonical object form the handler emits
(`\x7b"success":B,"message":S,"id":U\x7d`): the boolean decodes into
`Success`, the string body into `Message`, and the `id` string through
`uuid.Parse` (`UnmarshalText`) into `ID`. -/
def unmarshalChars (s : List Char) : Option Response :=
  (consumeLit "\x7b\"success\":".data s).bind fun s1 =>
  (parseBool s1).bind fun pb =>
  (consumeLit ",\"message\":\"".data pb.2).bind fun s2 =>
  (readJsonString s2).bind fun pm =>
  (consumeLit ",\"id\":\"".data pm.2).bind fun s3 =>
  (readJsonString s3).bind fun pu =>
  (uuidParseChars pu.1).bind fun u =>
  (consumeLit "\x7d".data pu.2).bind fun s4 =>
  if s4 = [] then some ⟨pb.1, ⟨pm.1⟩, u⟩ else none

/-- `json.Unmarshal` of a `Response` from a Lean string. -/
def unmarshalResponse (s : String) : Option Response :=
  unmarshalChars s.data

theorem consumeLit_append (pre rest : List Char) :
    consumeLit pre (pre ++ rest) = some rest := by
  induction pre with
  | nil => rfl
  | cons p ps ih => simp [consumeLit, ih]

theorem readJsonString_cons (c : Char) (s : List Char)
    (h1 : c ≠ '"') (h2 : c ≠ '\\') :
    readJsonString (c :: s) = (readJsonString s).map fun p => (c :: p.1, p.2) := by
  match s with
  | [] => rw [readJsonString.eq_def]; simp [h1, h2]
  | e :: rest =>
    rw [readJsonString.eq_def]
    split <;> simp_all

theorem readJsonString_clean (cs rest : List Char)
    (h : ∀ c ∈ cs, c ≠ '"' ∧ c ≠ '\\') :
    readJsonString (cs ++ '"' :: rest) = some (cs, rest) := by
  induction cs with
  | nil => rfl
  | cons c tl ih =>
    have hc := h c (by simp)
    have htl : ∀ x ∈ tl, x ≠ '"' ∧ x ≠ '\\' := fun x hx => h x (by simp [hx])
    rw [List.cons_append, readJsonString_cons c _ hc.1 hc.2, ih htl]
    rfl

theorem digitChar_clean (n : Nat) (h : n < 16) :
    Nat.digitChar n ≠ '"' ∧ Nat.digitChar n ≠ '\\' := by
  interval_cases n <;> decide

theorem byteHexSeq_clean (bs : List Nat) (h : ∀ b ∈ bs, b < 256) :
    ∀ c ∈ byteHexSeq bs, c ≠ '"' ∧ c ≠ '\\' := by
  induction bs with
  | nil => simp [byteHexSeq]
  | cons b tl ih =>
    have hb : b < 256 := h b (by simp)
    have htl : ∀ x ∈ tl, x < 256 := fun x hx => h x (by simp [hx])
    intro c hc
    simp only [byteHexSeq, byteHex, List.mem_append, List.mem_cons,
      List.not_mem_nil, or_false] at hc
    rcases hc with (hc | hc) | hc
    · exact hc ▸ digitChar_clean _ (by omega)
    · exact hc ▸ digitChar_clean _ (by omega)
    · exact ih htl c hc

theorem uuidChars_clean (u : UUID) (h : uuidWF u) :
    ∀ c ∈ uuidChars u, c ≠ '"' ∧ c ≠ '\\' := by
  obtain ⟨h0, h1, h2, h3, h4, h5, h6, h7, h8, h9, h10, h11, h12, h13, h14, h15⟩ := h
  intro c hc
  simp only [uuidChars, List.mem_append, List.mem_cons] at hc
  rcases hc with hc | hc | hc | hc | hc | hc | hc | hc | hc
  · exact byteHexSeq_clean [u.b0, u.b1, u.b2, u.b3] (by simp_all) c hc
  · exact hc ▸ (by decide)
  · exact byteHexSeq_clean [u.b4, u.b5] (by simp_all) c hc
  · exact hc ▸ (by decide)
  · exact byteHexSeq_clean [u.b6, u.b7] (by simp_all) c hc
  · exact hc ▸ (by decide)
  · exact byteHexSeq_clean [u.b8, u.b9] (by simp_all) c hc
  · exact hc ▸ (by decide)
  · exact byteHexSeq_clean [u.b10, u.b11, u.b12, u.b13, u.b14, u.b15]
      (by simp_all) c hc


theorem parseBool_true (X : List Char) : parseBool ("true".data ++ X) = some (true, X) := by
  unfold parseBool
  rw [consumeLit_append]

theorem parseBool_false (X : List Char) : parseBool ("false".data ++ X) = some (false, X) := by
  unfold parseBool
  have h : consumeLit "true".data ("false".data ++ X) = none := rfl
  rw [h, consumeLit_append]

theorem parseBool_boolData (b : Bool) (X : List Char) :
    parseBool ((if b then "true".data else "false".data) ++ X) = some (b, X) := by
  cases b
  · rw [if_neg (by simp), parseBool_false]
  · rw [if_pos rfl, parseBool_true]

theorem unmarshal_canonical (b : Bool) (msg : List Char) (u : UUID)
    (hmsg : ∀ c ∈ msg, c ≠ '"' ∧ c ≠ '\\') (hu : uuidWF u) :
    unmarshalChars ("\x7b\"success\":".data ++
      ((if b then "true".data else "false".data) ++
      (",\"message\":\"".data ++ (msg ++
      ("\",\"id\":\"".data ++ (uuidChars u ++ "\"\x7d".data)))))) =
    some ⟨b, ⟨msg⟩, u⟩ := by
  unfold unmarshalChars
  rw [consumeLit_append]
  simp only [Option.some_bind]
  rw [parseBool_boolData]
  simp only [Option.some_bind]
  rw [consumeLit_append]
  simp only [Option.some_bind]
  simp only [List.cons_append]
  rw [readJsonString_clean _ _ hmsg]
  simp only [Option.some_bind]
  simp [consumeLit, readJsonString_clean _ _ (uuidChars_clean u hu),
    uuidChars_roundtrip u hu]


/-- C9: every `Response` the handler produces (any of the four fixed
success/message combinations, with any well-formed UUID id), serialized
to JSON and deserialized back, yields a structurally identical
`Response` (same success, same message, same id). -/
theorem claim_C9 (b : Bool) (m : String) (u : UUID) (hu : uuidWF u)
    (hmsg : (b, m) ∈
      [(true, "Configuration received"), (false, "Invalid request method"),
       (false, "Invalid content type"), (false, "Failed to process configuration")]) :
    unmarshalResponse (marshalResponse ⟨b, m, u⟩) = some ⟨b, m, u⟩ := by
  simp only [List.mem_cons, List.not_mem_nil, or_false, Prod.mk.injEq] at hmsg
  show unmarshalChars (marshalChars ⟨b, m, u⟩) = some ⟨b, m, u⟩
  rcases hmsg with ⟨rfl, rfl⟩ | ⟨rfl, rfl⟩ | ⟨rfl, rfl⟩ | ⟨rfl, rfl⟩
  · have hesc : jsonEscape "Configuration received".data =
        "Configuration received".data := by decide
    simp only [marshalChars, hesc]
    exact unmarshal_canonical true "Configuration received".data u (by decide) hu
  · have hesc : jsonEscape "Invalid request method".data =
        "Invalid request method".data := by decide
    simp only [marshalChars, hesc]
    exact unmarshal_canonical false "Invalid request method".data u (by decide) hu
  · have hesc : jsonEscape "Invalid content type".data =
        "Invalid content type".data := by decide
    simp only [marshalChars, hesc]
    exact unmarshal_canonical false "Invalid content type".data u (by decide) hu
  · have hesc : jsonEscape "Failed to process configuration".data =
        "Failed to process configuration".data := by decide
    simp only [marshalChars, hesc]
    exact unmarshal_canonical false "Failed to process configuration".data u (by decide) hu


/-- Models the inbound `*http.Request` as the handler reads it:
`Method` is `r.Method`; `ContentTypeHeader` is the value
`r.Header.Get("Content-Type")` returns.  The body is opaque to the
handler itself (only processors consume it). -/
structure Request where
  Method : String
  ContentTypeHeader : String
deriving DecidableEq

/-- One observable action of `ServeHTTP` on the span or the
`http.ResponseWriter`, in program order:
`spanSetAttrId` = `span.SetAttributes(attribute.Stringer("id", id))`;
`spanSetAttrStr`/`spanSetAttrBool` = `span.SetAttributes` of a
string/bool attribute; `spanSetStatus` = `span.SetStatus(codes.Error,
reason)`; `spanRecordError` = `span.RecordError(err)`;
`invokeProc i` = the call `p.Process(ctx, r.Body)` on the i-th
registered processor; `emitResponse` = the call
`writeResponse(span, w, statusCode, resp)`; `wSetHeader`/`wDelHeader` =
`w.Header().Set`/`.Del`; `wWriteHeader` = `w.WriteHeader(statusCode)`;
`wWrite` = `w.Write(respBody)` (or the write `http.Error` performs). -/
inductive Event where
  | spanSetAttrId (u : UUID)
  | spanSetAttrStr (k v : String)
  | spanSetAttrBool (k : String) (b : Bool)
  | spanSetStatus (reason : String)
  | spanRecordError
  | invokeProc (i : Nat)
  | emitResponse (status : Nat) (resp : Response)
  | wSetHeader (k v : String)
  | wDelHeader (k : String)
  | wWriteHeader (status : Nat)
  | wWrite (body : String)
deriving DecidableEq

/-- Models `http.Error(w, msg, code)` from net/http: deletes
Content-Length, sets text/plain and nosniff headers, writes the status
code and the message followed by a newline. -/
def httpErrorEvents (msg : String) (code : Nat) : List Event :=
  [Event.wDelHeader "Content-Length",
   Event.wSetHeader "Content-Type" "text/plain; charset=utf-8",
   Event.wSetHeader "X-Content-Type-Options" "nosniff",
   Event.wWriteHeader code,
   Event.wWrite (msg ++ "\n")]

/-- Models `writeResponse(span, w, statusCode, resp)` from create.go.
`json.Marshal` cannot fail on a `Response` (bool, string and uuid.UUID
marshal without error), so the marshal-error branch is unreachable and
the function always sets the JSON content type, writes the status code
and writes the serialized body.  Whether `w.Write` reports an error is
environment behaviour, modelled by the oracle `writeFails`; on failure
the code records the error on the span, marks the span errored with
"failed to write response" and then calls `http.Error`. -/
def writeResponseEvents (writeFails : Bool) (statusCode : Nat) (resp : Response) :
    List Event :=
  Event.emitResponse statusCode resp ::
  Event.wSetHeader "Content-Type" "application/json" ::
  Event.wWriteHeader statusCode ::
  Event.wWrite (marshalResponse resp) ::
  (if writeFails then
    Event.spanRecordError :: Event.spanSetStatus "failed to write response" ::
      httpErrorEvents "Failed to write response" 500
   else [])

/-- A registered processor, abstracted by its outcome on this request:
`none` when `Process` returns nil, `some e` when it returns an error
with text `e` (`err.Error()`). -/
abbrev ProcOutcome := Option String

/-- Models the `for _, p := range h.processors` loop of `ServeHTTP`
starting at position `i`: invoke each processor in order; at the first
failure mark the span errored with the error text and write the generic
500 response; if none fail, set the `success=true` span attribute and
write the 200 response carrying the correlation id. -/
def processLoop (procs : List ProcOutcome) (i : Nat) (id : UUID)
    (writeFails : Bool) : List Event :=
  match procs with
  | [] =>
    Event.spanSetAttrBool "success" true ::
    writeResponseEvents writeFails 200 ⟨true, "Configuration received", id⟩
  | p :: rest =>
    Event.invokeProc i ::
    match p with
    | some e =>
      Event.spanSetStatus e ::
      writeResponseEvents writeFails 500
        ⟨false, "Failed to process configuration", uuidNil⟩
    | none => processLoop rest (i + 1) id writeFails

/-- Models `ServeHTTP` of the `Create` handler as its ordered list of
observable actions.  `id` is the value `uuid.New()` returned for this
request (randomness oracle); `writeFails` is whether the single
`w.Write` of the serialized response reports an error.  The failure
`Response` literals carry the zero-value `uuid.UUID` (`uuidNil`)
because their composite literals omit the `ID` field. -/
def serveHTTP (procs : List ProcOutcome) (req : Request) (id : UUID)
    (writeFails : Bool) : List Event :=
  Event.spanSetAttrId id ::
  (if req.Method ≠ "POST" then
    Event.spanSetAttrStr "method" req.Method ::
    Event.spanSetStatus "invalid request method" ::
    writeResponseEvents writeFails 405 ⟨false, "Invalid request method", uuidNil⟩
  else if req.ContentTypeHeader ≠ "application/yaml" then
    Event.spanSetAttrStr "content-type" req.ContentTypeHeader ::
    Event.spanSetStatus "invalid request content type" ::
    writeResponseEvents writeFails 400 ⟨false, "Invalid content type", uuidNil⟩
  else
    processLoop procs 0 id writeFails)

/-- The status code of the first `w.WriteHeader` call, i.e. the status
line actually sent to the caller. -/
def sentStatus? : List Event → Option Nat
  | [] => none
  | Event.wWriteHeader n :: _ => some n
  | _ :: evs => sentStatus? evs

/-- The body of the first `w.Write` call: the bytes the caller reads. -/
def sentBody? : List Event → Option String
  | [] => none
  | Event.wWrite s :: _ => some s
  | _ :: evs => sentBody? evs

/-- The status and `Response` value of the first `writeResponse` call. -/
def sentResp? : List Event → Option (Nat × Response)
  | [] => none
  | Event.emitResponse n r :: _ => some (n, r)
  | _ :: evs => sentResp? evs

/-- The positions of the processors that were invoked, in invocation
order. -/
def invokedList : List Event → List Nat
  | [] => []
  | Event.invokeProc i :: evs => i :: invokedList evs
  | _ :: evs => invokedList evs

/-- Whether an event is a call on the `http.ResponseWriter` (the wire),
as opposed to span telemetry or an internal call. -/
def isWire : Event → Bool
  | Event.wSetHeader _ _ => true
  | Event.wDelHeader _ => true
  | Event.wWriteHeader _ => true
  | Event.wWrite _ => true
  | _ => false

/-- The response-writer calls only: everything the caller can observe. -/
def wireEvents (evs : List Event) : List Event :=
  evs.filter isWire

/-- The events after the first `w.Write` call. -/
def afterFirstWrite : List Event → List Event
  | [] => []
  | Event.wWrite _ :: evs => evs
  | _ :: evs => afterFirstWrite evs


theorem processLoop_all_none (procs : List ProcOutcome)
    (h : ∀ p ∈ procs, p = none) (i : Nat) (id : UUID) (wf : Bool) :
    sentStatus? (processLoop procs i id wf) = some 200 ∧
    sentResp? (processLoop procs i id wf) =
      some (200, ⟨true, "Configuration received", id⟩) ∧
    sentBody? (processLoop procs i id wf) =
      some (marshalResponse ⟨true, "Configuration received", id⟩) ∧
    invokedList (processLoop procs i id wf) = List.range' i procs.length := by
  induction procs generalizing i with
  | nil => cases wf <;> exact ⟨rfl, rfl, rfl, rfl⟩
  | cons p rest ih =>
    have hp : p = none := h p (by simp)
    subst hp
    have hr : ∀ x ∈ rest, x = none := fun x hx => h x (by simp [hx])
    obtain ⟨a, b, c, d⟩ := ih hr (i + 1)
    exact ⟨a, b, c, congrArg (List.cons i) d⟩

theorem processLoop_first_fail (pre : List ProcOutcome) (e : String)
    (post : List ProcOutcome) (hpre : ∀ p ∈ pre, p = none)
    (i : Nat) (id : UUID) (wf : Bool) :
    sentStatus? (processLoop (pre ++ some e :: post) i id wf) = some 500 ∧
    sentResp? (processLoop (pre ++ some e :: post) i id wf) =
      some (500, ⟨false, "Failed to process configuration", uuidNil⟩) ∧
    sentBody? (processLoop (pre ++ some e :: post) i id wf) =
      some (marshalResponse ⟨false, "Failed to process configuration", uuidNil⟩) ∧
    invokedList (processLoop (pre ++ some e :: post) i id wf) =
      List.range' i (pre.length + 1) := by
  induction pre generalizing i with
  | nil => cases wf <;> exact ⟨rfl, rfl, rfl, rfl⟩
  | cons p pre2 ih =>
    have hp : p = none := hpre p (by simp)
    subst hp
    have hr : ∀ x ∈ pre2, x = none := fun x hx => hpre x (by simp [hx])
    obtain ⟨a, b, c, d⟩ := ih hr (i + 1)
    exact ⟨a, b, c, congrArg (List.cons i) d⟩

theorem processLoop_sentResp (procs : List ProcOutcome) (i : Nat) (id : UUID)
    (wf : Bool) :
    sentResp? (processLoop procs i id wf) =
      some (500, ⟨false, "Failed to process configuration", uuidNil⟩) ∧
    sentStatus? (processLoop procs i id wf) = some 500 ∧
    sentBody? (processLoop procs i id wf) =
      some (marshalResponse ⟨false, "Failed to process configuration", uuidNil⟩) ∨
    sentResp? (processLoop procs i id wf) =
      some (200, ⟨true, "Configuration received", id⟩) ∧
    sentStatus? (processLoop procs i id wf) = some 200 ∧
    sentBody? (processLoop procs i id wf) =
      some (marshalResponse ⟨true, "Configuration received", id⟩) := by
  induction procs generalizing i with
  | nil => right; cases wf <;> exact ⟨rfl, rfl, rfl⟩
  | cons p rest ih =>
    cases p with
    | some e => left; cases wf <;> exact ⟨rfl, rfl, rfl⟩
    | none => exact ih (i + 1)


theorem serveHTTP_outcome (procs : List ProcOutcome) (req : Request) (id : UUID)
    (wf : Bool) :
    (sentStatus? (serveHTTP procs req id wf) = some 405 ∧
     sentResp? (serveHTTP procs req id wf) =
       some (405, ⟨false, "Invalid request method", uuidNil⟩) ∧
     sentBody? (serveHTTP procs req id wf) =
       some (marshalResponse ⟨false, "Invalid request method", uuidNil⟩)) ∨
    (sentStatus? (serveHTTP procs req id wf) = some 400 ∧
     sentResp? (serveHTTP procs req id wf) =
       some (400, ⟨false, "Invalid content type", uuidNil⟩) ∧
     sentBody? (serveHTTP procs req id wf) =
       some (marshalResponse ⟨false, "Invalid content type", uuidNil⟩)) ∨
    (sentStatus? (serveHTTP procs req id wf) = some 500 ∧
     sentResp? (serveHTTP procs req id wf) =
       some (500, ⟨false, "Failed to process configuration", uuidNil⟩) ∧
     sentBody? (serveHTTP procs req id wf) =
       some (marshalResponse ⟨false, "Failed to process configuration", uuidNil⟩)) ∨
    (sentStatus? (serveHTTP procs req id wf) = some 200 ∧
     sentResp? (serveHTTP procs req id wf) =
       some (200, ⟨true, "Configuration received", id⟩) ∧
     sentBody? (serveHTTP procs req id wf) =
       some (marshalResponse ⟨true, "Configuration received", id⟩)) := by
  by_cases hm : req.Method = "POST"
  · by_cases hct : req.ContentTypeHeader = "application/yaml"
    · have hS : serveHTTP procs req id wf =
          Event.spanSetAttrId id :: processLoop procs 0 id wf := by
        unfold serveHTTP
        rw [if_neg (by simp [hm]), if_neg (by simp [hct])]
      rcases processLoop_sentResp procs 0 id wf with ⟨a, b, c⟩ | ⟨a, b, c⟩
      · right; right; left; rw [hS]; exact ⟨b, a, c⟩
      · right; right; right; rw [hS]; exact ⟨b, a, c⟩
    · right; left
      have hS : serveHTTP procs req id wf =
          Event.spanSetAttrId id ::
          Event.spanSetAttrStr "content-type" req.ContentTypeHeader ::
          Event.spanSetStatus "invalid request content type" ::
          writeResponseEvents wf 400 ⟨false, "Invalid content type", uuidNil⟩ := by
        unfold serveHTTP
        rw [if_neg (by simp [hm]), if_pos hct]
      rw [hS]; cases wf <;> exact ⟨rfl, rfl, rfl⟩
  · left
    have hS : serveHTTP procs req id wf =
        Event.spanSetAttrId id ::
        Event.spanSetAttrStr "method" req.Method ::
        Event.spanSetStatus "invalid request method" ::
        writeResponseEvents wf 405 ⟨false, "Invalid request method", uuidNil⟩ := by
      unfold serveHTTP
      rw [if_pos hm]
    rw [hS]; cases wf <;> exact ⟨rfl, rfl, rfl⟩

theorem processLoop_wire_shape (l1 l2 : List ProcOutcome)
    (hshape : l1.map Option.isSome = l2.map Option.isSome)
    (i : Nat) (id : UUID) (wf : Bool) :
    wireEvents (processLoop l1 i id wf) = wireEvents (processLoop l2 i id wf) := by
  induction l1 generalizing l2 i with
  | nil =>
    cases l2 with
    | nil => rfl
    | cons q t => simp at hshape
  | cons p t ih =>
    cases l2 with
    | nil => simp at hshape
    | cons q t2 =>
      simp only [List.map_cons, List.cons.injEq] at hshape
      obtain ⟨hpq, ht⟩ := hshape
      cases p with
      | none =>
        cases q with
        | none =>
          show wireEvents (Event.invokeProc i :: processLoop t (i + 1) id wf) =
            wireEvents (Event.invokeProc i :: processLoop t2 (i + 1) id wf)
          simp only [wireEvents, List.filter_cons]
          exact ih t2 ht (i + 1)
        | some e2 => simp at hpq
      | some e1 =>
        cases q with
        | none => simp at hpq
        | some e2 => cases wf <;> rfl


theorem serveHTTP_not_post (procs : List ProcOutcome) (req : Request) (id : UUID)
    (wf : Bool) (h : req.Method ≠ "POST") :
    serveHTTP procs req id wf =
      Event.spanSetAttrId id ::
      Event.spanSetAttrStr "method" req.Method ::
      Event.spanSetStatus "invalid request method" ::
      writeResponseEvents wf 405 ⟨false, "Invalid request method", uuidNil⟩ := by
  unfold serveHTTP
  rw [if_pos h]

theorem serveHTTP_bad_ct (procs : List ProcOutcome) (req : Request) (id : UUID)
    (wf : Bool) (h1 : req.Method = "POST")
    (h2 : req.ContentTypeHeader ≠ "application/yaml") :
    serveHTTP procs req id wf =
      Event.spanSetAttrId id ::
      Event.spanSetAttrStr "content-type" req.ContentTypeHeader ::
      Event.spanSetStatus "invalid request content type" ::
      writeResponseEvents wf 400 ⟨false, "Invalid content type", uuidNil⟩ := by
  unfold serveHTTP
  rw [if_neg (by simp [h1]), if_pos h2]

theorem serveHTTP_dispatch (procs : List ProcOutcome) (req : Request) (id : UUID)
    (wf : Bool) (h1 : req.Method = "POST")
    (h2 : req.ContentTypeHeader = "application/yaml") :
    serveHTTP procs req id wf =
      Event.spanSetAttrId id :: processLoop procs 0 id wf := by
  unfold serveHTTP
  rw [if_neg (by simp [h1]), if_neg (by simp [h2])]

/-- C3: for every request whose method is not POST, the handler responds
with status 405 and body `\x7bsuccess:false, message:"Invalid request
method"\x7d`, regardless of the Content-Type header, the body and the
registered processors, and no processor is invoked. -/
theorem claim_C3 (procs : List ProcOutcome) (req : Request) (id : UUID) (wf : Bool)
    (h : req.Method ≠ "POST") :
    sentStatus? (serveHTTP procs req id wf) = some 405 ∧
    sentResp? (serveHTTP procs req id wf) =
      some (405, ⟨false, "Invalid request method", uuidNil⟩) ∧
    sentBody? (serveHTTP procs req id wf) =
      some (marshalResponse ⟨false, "Invalid request method", uuidNil⟩) ∧
    invokedList (serveHTTP procs req id wf) = [] := by
  rw [serveHTTP_not_post procs req id wf h]
  cases wf <;> exact ⟨rfl, rfl, rfl, rfl⟩

theorem claim_C3_witness :
    sentStatus? (serveHTTP [some "boom"] ⟨"GET", "application/yaml"⟩ uuidNil false) =
      some 405 ∧
    sentResp? (serveHTTP [some "boom"] ⟨"GET", "application/yaml"⟩ uuidNil false) =
      some (405, ⟨false, "Invalid request method", uuidNil⟩) ∧
    sentBody? (serveHTTP [some "boom"] ⟨"GET", "application/yaml"⟩ uuidNil false) =
      some (marshalResponse ⟨false, "Invalid request method", uuidNil⟩) ∧
    invokedList (serveHTTP [some "boom"] ⟨"GET", "application/yaml"⟩ uuidNil false) = [] :=
  claim_C3 [some "boom"] ⟨"GET", "application/yaml"⟩ uuidNil false (by decide)

/-- C4: for every POST request whose Content-Type header is not exactly
"application/yaml", the handler responds with status 400 and body
`\x7bsuccess:false, message:"Invalid content type"\x7d`, and no
processor is invoked. -/
theorem claim_C4 (procs : List ProcOutcome) (req : Request) (id : UUID) (wf : Bool)
    (h1 : req.Method = "POST") (h2 : req.ContentTypeHeader ≠ "application/yaml") :
    sentStatus? (serveHTTP procs req id wf) = some 400 ∧
    sentResp? (serveHTTP procs req id wf) =
      some (400, ⟨false, "Invalid content type", uuidNil⟩) ∧
    sentBody? (serveHTTP procs req id wf) =
      some (marshalResponse ⟨false, "Invalid content type", uuidNil⟩) ∧
    invokedList (serveHTTP procs req id wf) = [] := by
  rw [serveHTTP_bad_ct procs req id wf h1 h2]
  cases wf <;> exact ⟨rfl, rfl, rfl, rfl⟩

theorem claim_C4_witness :
    sentStatus? (serveHTTP [some "boom"] ⟨"POST", "application/json"⟩ uuidNil false) =
      some 400 ∧
    sentResp? (serveHTTP [some "boom"] ⟨"POST", "application/json"⟩ uuidNil false) =
      some (400, ⟨false, "Invalid content type", uuidNil⟩) ∧
    sentBody? (serveHTTP [some "boom"] ⟨"POST", "application/json"⟩ uuidNil false) =
      some (marshalResponse ⟨false, "Invalid content type", uuidNil⟩) ∧
    invokedList (serveHTTP [some "boom"] ⟨"POST", "application/json"⟩ uuidNil false) = [] :=
  claim_C4 [some "boom"] ⟨"POST", "application/json"⟩ uuidNil false (by decide) (by decide)

/-- C7: a request failing both the method check and the content-type
check always reports the method failure (status 405, message "Invalid
request method") and never the content-type failure: the method check
runs first. -/
theorem claim_C7 (procs : List ProcOutcome) (req : Request) (id : UUID) (wf : Bool)
    (h1 : req.Method ≠ "POST") (h2 : req.ContentTypeHeader ≠ "application/yaml") :
    sentStatus? (serveHTTP procs req id wf) = some 405 ∧
    sentResp? (serveHTTP procs req id wf) =
      some (405, ⟨false, "Invalid request method", uuidNil⟩) ∧
    sentStatus? (serveHTTP procs req id wf) ≠ some 400 := by
  rw [serveHTTP_not_post procs req id wf h1]
  cases wf <;>
    exact ⟨rfl, rfl, fun hc => absurd (show some (405 : Nat) = some 400 from hc) (by simp)⟩

theorem claim_C7_witness :
    sentStatus? (serveHTTP [] ⟨"GET", "text/html"⟩ uuidNil false) = some 405 ∧
    sentResp? (serveHTTP [] ⟨"GET", "text/html"⟩ uuidNil false) =
      some (405, ⟨false, "Invalid request method", uuidNil⟩) ∧
    sentStatus? (serveHTTP [] ⟨"GET", "text/html"⟩ uuidNil false) ≠ some 400 :=
  claim_C7 [] ⟨"GET", "text/html"⟩ uuidNil false (by decide) (by decide)


/-- C1: for every POST request with Content-Type exactly
"application/yaml" whose processor list has a first failing processor
(the ones before it all succeed), the handler responds with status 500
and body `\x7bsuccess:false, message:"Failed to process
configuration"\x7d`, and exactly the processors up to and including the
first failing one are invoked, in registration order: every processor
registered after it is never invoked. -/
theorem claim_C1 (pre post : List ProcOutcome) (e : String) (req : Request)
    (id : UUID) (wf : Bool) (h1 : req.Method = "POST")
    (h2 : req.ContentTypeHeader = "application/yaml")
    (hpre : ∀ p ∈ pre, p = none) :
    sentStatus? (serveHTTP (pre ++ some e :: post) req id wf) = some 500 ∧
    sentResp? (serveHTTP (pre ++ some e :: post) req id wf) =
      some (500, ⟨false, "Failed to process configuration", uuidNil⟩) ∧
    sentBody? (serveHTTP (pre ++ some e :: post) req id wf) =
      some (marshalResponse ⟨false, "Failed to process configuration", uuidNil⟩) ∧
    invokedList (serveHTTP (pre ++ some e :: post) req id wf) =
      List.range (pre.length + 1) := by
  rw [serveHTTP_dispatch (pre ++ some e :: post) req id wf h1 h2]
  obtain ⟨a, b, c, d⟩ := processLoop_first_fail pre e post hpre 0 id wf
  exact ⟨a, b, c, by rw [List.range_eq_range']; exact d⟩

theorem claim_C1_witness :
    sentStatus? (serveHTTP [none, some "boom", some "later"]
        ⟨"POST", "application/yaml"⟩ uuidNil false) = some 500 ∧
    sentResp? (serveHTTP [none, some "boom", some "later"]
        ⟨"POST", "application/yaml"⟩ uuidNil false) =
      some (500, ⟨false, "Failed to process configuration", uuidNil⟩) ∧
    sentBody? (serveHTTP [none, some "boom", some "later"]
        ⟨"POST", "application/yaml"⟩ uuidNil false) =
      some (marshalResponse ⟨false, "Failed to process configuration", uuidNil⟩) ∧
    invokedList (serveHTTP [none, some "boom", some "later"]
        ⟨"POST", "application/yaml"⟩ uuidNil false) = List.range 2 :=
  claim_C1 [none] [some "later"] "boom" ⟨"POST", "application/yaml"⟩ uuidNil false
    rfl rfl (by simp)

/-- C2: for every POST request with Content-Type exactly
"application/yaml" where all registered processors succeed (including
zero processors), the handler responds with status 200 and body
`\x7bsuccess:true, message:"Configuration received", id:<correlation
id>\x7d`, where the id is the UUID generated for this request by
`uuid.New`, which is syntactically valid (its canonical string parses
back to it) and non-nil. -/
theorem claim_C2 (procs : List ProcOutcome) (req : Request) (rand : Fin 16 → Nat)
    (wf : Bool) (h1 : req.Method = "POST")
    (h2 : req.ContentTypeHeader = "application/yaml")
    (h3 : ∀ p ∈ procs, p = none) :
    sentStatus? (serveHTTP procs req (uuidNew rand) wf) = some 200 ∧
    sentResp? (serveHTTP procs req (uuidNew rand) wf) =
      some (200, ⟨true, "Configuration received", uuidNew rand⟩) ∧
    sentBody? (serveHTTP procs req (uuidNew rand) wf) =
      some (marshalResponse ⟨true, "Configuration received", uuidNew rand⟩) ∧
    uuidWF (uuidNew rand) ∧ uuidNew rand ≠ uuidNil ∧
    uuidParseChars (uuidChars (uuidNew rand)) = some (uuidNew rand) := by
  rw [serveHTTP_dispatch procs req (uuidNew rand) wf h1 h2]
  obtain ⟨a, b, c, _⟩ := processLoop_all_none procs h3 0 (uuidNew rand) wf
  exact ⟨a, b, c, uuidNew_wf rand, uuidNew_ne_nil rand,
    uuidChars_roundtrip (uuidNew rand) (uuidNew_wf rand)⟩

theorem claim_C2_witness :
    sentStatus? (serveHTTP [none] ⟨"POST", "application/yaml"⟩
      (uuidNew fun _ => 7) false) = some 200 ∧
    sentResp? (serveHTTP [none] ⟨"POST", "application/yaml"⟩
      (uuidNew fun _ => 7) false) =
      some (200, ⟨true, "Configuration received", uuidNew fun _ => 7⟩) ∧
    sentBody? (serveHTTP [none] ⟨"POST", "application/yaml"⟩
      (uuidNew fun _ => 7) false) =
      some (marshalResponse ⟨true, "Configuration received", uuidNew fun _ => 7⟩) ∧
    uuidWF (uuidNew fun _ => 7) ∧ (uuidNew fun _ => 7) ≠ uuidNil ∧
    uuidParseChars (uuidChars (uuidNew fun _ => 7)) = some (uuidNew fun _ => 7) :=
  claim_C2 [none] ⟨"POST", "application/yaml"⟩ (fun _ => 7) false rfl rfl (by simp)

/-- C6: for every request, the correlation id attribute is the very
first observable action of the handler (before any check and before any
response is emitted), and the id appears in the emitted `Response` only
on the 200 path: every failure response carries the nil UUID, which is
never the generated id. -/
theorem claim_C6 (procs : List ProcOutcome) (req : Request) (rand : Fin 16 → Nat)
    (wf : Bool) :
    (serveHTTP procs req (uuidNew rand) wf).head? =
      some (Event.spanSetAttrId (uuidNew rand)) ∧
    ∀ n resp, sentResp? (serveHTTP procs req (uuidNew rand) wf) = some (n, resp) →
      (n = 200 → resp.ID = uuidNew rand) ∧
      (n ≠ 200 → resp.ID = uuidNil ∧ resp.ID ≠ uuidNew rand) := by
  constructor
  · rfl
  · intro n resp hr
    rcases serveHTTP_outcome procs req (uuidNew rand) wf with
      ⟨_, b, _⟩ | ⟨_, b, _⟩ | ⟨_, b, _⟩ | ⟨_, b, _⟩ <;>
      rw [b] at hr <;>
      injection hr with hr2 <;>
      injection hr2 with hn hresp <;>
      subst hn <;> subst hresp
    · exact ⟨fun h => absurd h (by decide), fun _ =>
        ⟨rfl, (uuidNew_ne_nil rand).symm⟩⟩
    · exact ⟨fun h => absurd h (by decide), fun _ =>
        ⟨rfl, (uuidNew_ne_nil rand).symm⟩⟩
    · exact ⟨fun h => absurd h (by decide), fun _ =>
        ⟨rfl, (uuidNew_ne_nil rand).symm⟩⟩
    · exact ⟨fun _ => rfl, fun hne => absurd rfl hne⟩

theorem claim_C6_witness :
    (serveHTTP [some "x"] ⟨"POST", "application/yaml"⟩ (uuidNew fun _ => 0)
        false).head? = some (Event.spanSetAttrId (uuidNew fun _ => 0)) ∧
    ((uuidNil : UUID) = uuidNil ∧ uuidNil ≠ uuidNew fun _ => 0) := by
  have h := claim_C6 [some "x"] ⟨"POST", "application/yaml"⟩ (fun _ => 0) false
  exact ⟨h.1,
    (h.2 500 ⟨false, "Failed to process configuration", uuidNil⟩ rfl).2 (by decide)⟩

/-- C8: two runs over processor lists with the same success/failure
pattern but arbitrary (e.g. different) error texts, on the same valid
request, produce identical response-writer traffic; when there is a
failing processor that traffic is status 500 with the fixed generic
body: processor error text reaches the span only, never the wire. -/
theorem claim_C8 (l2 pre post : List ProcOutcome) (e : String) (req : Request)
    (id : UUID) (wf : Bool) (h1 : req.Method = "POST")
    (h2 : req.ContentTypeHeader = "application/yaml")
    (hshape : (pre ++ some e :: post).map Option.isSome = l2.map Option.isSome)
    (hpre : ∀ p ∈ pre, p = none) :
    wireEvents (serveHTTP (pre ++ some e :: post) req id wf) =
      wireEvents (serveHTTP l2 req id wf) ∧
    sentStatus? (serveHTTP (pre ++ some e :: post) req id wf) = some 500 ∧
    sentBody? (serveHTTP (pre ++ some e :: post) req id wf) =
      some (marshalResponse ⟨false, "Failed to process configuration", uuidNil⟩) := by
  obtain ⟨a, _, c, _⟩ := processLoop_first_fail pre e post hpre 0 id wf
  refine ⟨?_, ?_, ?_⟩
  · rw [serveHTTP_dispatch (pre ++ some e :: post) req id wf h1 h2,
      serveHTTP_dispatch l2 req id wf h1 h2]
    simp only [wireEvents, List.filter_cons]
    exact processLoop_wire_shape (pre ++ some e :: post) l2 hshape 0 id wf
  · rw [serveHTTP_dispatch (pre ++ some e :: post) req id wf h1 h2]
    exact a
  · rw [serveHTTP_dispatch (pre ++ some e :: post) req id wf h1 h2]
    exact c

theorem claim_C8_witness :
    wireEvents (serveHTTP [some "disk full"] ⟨"POST", "application/yaml"⟩
        uuidNil false) =
      wireEvents (serveHTTP [some "permission denied"]
        ⟨"POST", "application/yaml"⟩ uuidNil false) ∧
    sentStatus? (serveHTTP [some "disk full"] ⟨"POST", "application/yaml"⟩
        uuidNil false) = some 500 ∧
    sentBody? (serveHTTP [some "disk full"] ⟨"POST", "application/yaml"⟩
        uuidNil false) =
      some (marshalResponse ⟨false, "Failed to process configuration", uuidNil⟩) :=
  claim_C8 [some "permission denied"] [] [] "disk full"
    ⟨"POST", "application/yaml"⟩ uuidNil false rfl rfl rfl (by simp)


theorem claim_C9_witness :
    unmarshalResponse (marshalResponse
        ⟨false, "Failed to process configuration", uuidNil⟩) =
      some ⟨false, "Failed to process configuration", uuidNil⟩ :=
  claim_C9 false "Failed to process configuration" uuidNil (by decide) (by decide)

/-- C5 (counterexample): at a concrete request where the response write
fails, the handler does attempt further writes to the caller after the
failed write — the response-writer actions following the first
`w.Write` are not empty (http.Error emits a secondary plain-text
response), contradicting "no further write to the caller is
attempted". -/
theorem claim_C5_counterexample :
    wireEvents (afterFirstWrite (serveHTTP [] ⟨"POST", "application/yaml"⟩
      uuidNil true)) ≠ [] := by decide

/-- C5 (amended): if writing the serialized response bytes fails, the
span records the error and is marked errored with reason "failed to
write response", and the original body write is not retried; but the
handler then additionally attempts exactly one secondary plain-text
error response via `http.Error` ("Failed to write response", 500)
rather than reporting to the trace only. -/
theorem claim_C5 (statusCode : Nat) (resp : Response) :
    writeResponseEvents true statusCode resp =
      [Event.emitResponse statusCode resp,
       Event.wSetHeader "Content-Type" "application/json",
       Event.wWriteHeader statusCode,
       Event.wWrite (marshalResponse resp),
       Event.spanRecordError,
       Event.spanSetStatus "failed to write response",
       Event.wDelHeader "Content-Length",
       Event.wSetHeader "Content-Type" "text/plain; charset=utf-8",
       Event.wSetHeader "X-Content-Type-Options" "nosniff",
       Event.wWriteHeader 500,
       Event.wWrite "Failed to write response\n"] := rfl

set_option maxRecDepth 100000 in
/-- C10: every failure response (status other than 200) still
serializes the `id` field, and its value is always the nil UUID string
`00000000-0000-0000-0000-000000000000`: the failure branches construct
the `Response` with the zero-value UUID and the field has no
omitempty. -/
theorem claim_C10 (procs : List ProcOutcome) (req : Request) (rand : Fin 16 → Nat)
    (wf : Bool) (n : Nat)
    (hn : sentStatus? (serveHTTP procs req (uuidNew rand) wf) = some n)
    (h200 : n ≠ 200) :
    ∃ s, sentBody? (serveHTTP procs req (uuidNew rand) wf) = some s ∧
      "\"id\":\"00000000-0000-0000-0000-000000000000\"".data <:+: s.data := by
  rcases serveHTTP_outcome procs req (uuidNew rand) wf with
    ⟨a, _, c⟩ | ⟨a, _, c⟩ | ⟨a, _, c⟩ | ⟨a, _, c⟩
  · exact ⟨_, c, by decide⟩
  · exact ⟨_, c, by decide⟩
  · exact ⟨_, c, by decide⟩
  · rw [a] at hn
    injection hn with h
    exact absurd h.symm h200

set_option maxRecDepth 100000 in
theorem claim_C10_witness :
    ∃ s, sentBody? (serveHTTP [] ⟨"GET", ""⟩ (uuidNew fun _ => 3) false) = some s ∧
      "\"id\":\"00000000-0000-0000-0000-000000000000\"".data <:+: s.data :=
  claim_C10 [] ⟨"GET", ""⟩ (fun _ => 3) false 405 rfl (by decide)

end Seedling
